import Mathlib

/-!
Verification development for `docs/presentation/convert_to_pptx.py`.

Strings are modelled as lists of characters (`Str`).  Each definition below
embeds one Python construct of the source file:

* `pyStrip`       — `str.strip()` (Python whitespace on both ends)
* `pyRstripNl`    — `str.rstrip('\n')`
* `pyStartsWith`  — `str.startswith(pat)`
* `containsSub`   — `pat in s` (substring containment)
* `splitDashes`   — `str.split('---')` (leftmost, non-overlapping)
* `splitNl`       — `str.split('\n')`
* `parse_markdown`, `processLine`, `processTable`, `acceptSlide`,
  `parseSections` — the parser `parse_markdown` (source lines 13-100)
* `format_text`   — the regex substitutions of `format_text` (lines 303-313);
  the two regex scanners are implemented with an explicit fuel argument equal
  to the scanned string's length, which is always sufficient since each step
  consumes at least one character
* `renderTable`   — the table-cell loop of `add_content_slide` (lines 236-259)
* `add_content_slide_shapes`, `add_title_slide_shapes`,
  `add_section_slide_shapes`, `slideRole`, `renderSlide`,
  `create_presentation_shapes` — the layout logic (lines 102-344); vertical
  offsets and heights are integers in hundredths of an inch (every constant
  the source passes to `Inches(...)` is a multiple of 0.05 in, so the unit
  is exact; `Inches(x)` itself becomes an integer EMU count `int(x*914400)`
  in the source, and the float-rounding of that conversion is below any gap
  compared here).  The code block's shape is modelled by its footprint: the
  background rectangle (lines 280-284) which enlarges the text box by
  0.05 in on each side.
-/

abbrev Str := List Char

/-- Python whitespace characters recognised by `str.strip()`. -/
def pySpace (c : Char) : Bool :=
  c == ' ' || c == '\t' || c == '\n' || c == '\r' ||
    c == Char.ofNat 11 || c == Char.ofNat 12

/-- `str.strip()`. -/
def pyStrip (s : Str) : Str :=
  (((s.dropWhile pySpace).reverse).dropWhile pySpace).reverse

/-- `str.rstrip('\n')`. -/
def pyRstripNl (s : Str) : Str :=
  (s.reverse.dropWhile (fun c => c == '\n')).reverse

/-- `s.startswith(pat)`. -/
def pyStartsWith : Str → Str → Bool
  | _, [] => true
  | [], _ :: _ => false
  | c :: cs, p :: ps => c == p && pyStartsWith cs ps

/-- `pat in s` (substring containment). -/
def containsSub (pat : Str) : Str → Bool
  | [] => pat.isEmpty
  | c :: rest => pyStartsWith (c :: rest) pat || containsSub pat rest

def dashes3 : Str := ("---").data

def twoDashes : Str := ("--").data

/-- `content.split('---')` — splits at every leftmost non-overlapping
occurrence of the three-character substring `---` (source line 19). -/
def splitDashes : Str → Str → List Str
  | [], acc => [acc.reverse]
  | '-' :: '-' :: '-' :: rest, acc => acc.reverse :: splitDashes rest []
  | c :: rest, acc => splitDashes rest (c :: acc)

def pySections (content : Str) : List Str := splitDashes content []

/-- `s.split(sep)` for a single-character separator. -/
def splitChar (sep : Char) : Str → Str → List Str
  | [], acc => [acc.reverse]
  | c :: rest, acc =>
    if c = sep then acc.reverse :: splitChar sep rest []
    else splitChar sep rest (c :: acc)

def pyLines (s : Str) : List Str := splitChar '\n' s []

def joinSepTail (sep : Str) : List Str → Str
  | [] => []
  | p :: ps => sep ++ p ++ joinSepTail sep ps

/-- `sep.join(pieces)`. -/
def joinSep (sep : Str) : List Str → Str
  | [] => []
  | p :: ps => p ++ joinSepTail sep ps

/-- The intermediate slide representation built by `parse_markdown`
(`slide_data`, source line 29). -/
structure SlideData where
  title : Str
  subtitles : List Str
  content : List Str
  table : Option (List (List Str))
  code : List Str
deriving DecidableEq, Repr, Inhabited

/-- State of the per-line loop of `parse_markdown` (lines 30-81). -/
structure ParseState where
  slide : SlideData
  inCode : Bool
  codeLines : List Str
  tableLines : List Str
deriving DecidableEq, Repr, Inhabited

def emptySlide : SlideData :=
  { title := [], subtitles := [], content := [], table := none, code := [] }

def initState : ParseState :=
  { slide := emptySlide, inCode := false, codeLines := [], tableLines := [] }

def fenceMarker : Str := ("```").data
def barMarker : Str := ("|").data
def h1Marker : Str := ("# ").data
def h1Guard : Str := ("##").data
def h2Marker : Str := ("## ").data
def h3Marker : Str := ("### ").data

def lineBlank (l : Str) : Bool := (pyStrip l).isEmpty
def lineFence (l : Str) : Bool := pyStartsWith (pyStrip l) fenceMarker
def lineTable (l : Str) : Bool := pyStartsWith (pyStrip l) barMarker
def lineH1 (l : Str) : Bool := pyStartsWith l h1Marker && !(pyStartsWith l h1Guard)
def lineH2 (l : Str) : Bool := pyStartsWith l h2Marker
def lineH3 (l : Str) : Bool := pyStartsWith l h3Marker

/-- One iteration of the line loop of `parse_markdown` (source lines 34-81).
`titleDone` is the surrounding `title_slide_done` flag, read at line 66. -/
def processLine (titleDone : Bool) (st : ParseState) (line0 : Str) : ParseState :=
  let line := pyRstripNl line0
  if lineBlank line then
    if st.inCode then { st with codeLines := st.codeLines ++ [[]] } else st
  else if lineFence line then
    if st.inCode then
      { st with slide := { st.slide with code := st.codeLines },
                codeLines := [], inCode := false }
    else { st with inCode := true }
  else if st.inCode then
    { st with codeLines := st.codeLines ++ [line] }
  else if lineTable line then
    { st with tableLines := st.tableLines ++ [line] }
  else if lineH1 line then
    if titleDone then st
    else { st with slide := { st.slide with title := pyStrip (line.drop 2) } }
  else if lineH2 line then
    { st with slide := { st.slide with title := pyStrip (line.drop 3) } }
  else if lineH3 line then
    { st with slide := { st.slide with subtitles := st.slide.subtitles ++ [pyStrip (line.drop 4)] } }
  else
    { st with slide := { st.slide with content := st.slide.content ++ [pyStrip line] } }

/-- Result of running the line loop over one section (lines 28-81). -/
def sectionState (titleDone : Bool) (sec : Str) : ParseState :=
  (pyLines (pyStrip sec)).foldl (processLine titleDone) initState

/-- `table_line.split('|')[1:-1]` with each cell stripped (source line 88). -/
def cellsOf (tl : Str) : List Str :=
  (((splitChar '|' tl []).drop 1).dropLast).map pyStrip

/-- Table post-processing (source lines 84-92): rows containing `---` are
skipped, the rest are split on `|`, outer fields dropped, cells stripped;
rows whose cell list is empty are dropped. -/
def processTable (tls : List Str) : Option (List (List Str)) :=
  let td := tls.foldl
    (fun acc tl =>
      if containsSub dashes3 tl then acc
      else if (cellsOf tl).isEmpty then acc
      else acc ++ [cellsOf tl])
    ([] : List (List Str))
  if td.isEmpty then none else some td

/-- Builds the `slide_data` record for one section (lines 28-92). -/
def buildSlide (titleDone : Bool) (sec : Str) : SlideData :=
  let st := sectionState titleDone sec
  match processTable st.tableLines with
  | some t => { st.slide with table := some t }
  | none => st.slide

/-- Truthiness test of line 95: the slide is kept only if some field is
non-empty (`table` is `none` or a non-empty list, so `isSome` matches
Python truthiness here). -/
def acceptSlide (sd : SlideData) : Bool :=
  !sd.title.isEmpty || !sd.content.isEmpty || sd.table.isSome || !sd.code.isEmpty

/-- The section loop of `parse_markdown` (lines 24-98): whitespace-only
sections are skipped; a kept slide sets `title_slide_done`. -/
def parseSections (titleDone : Bool) : List Str → List SlideData
  | [] => []
  | sec :: rest =>
    if (pyStrip sec).isEmpty then parseSections titleDone rest
    else
      let sd := buildSlide titleDone sec
      if acceptSlide sd then sd :: parseSections true rest
      else parseSections titleDone rest

/-- `parse_markdown` (source lines 13-100), as a function of the file's text. -/
def parse_markdown (content : Str) : List SlideData :=
  parseSections false (pySections content)

/-- Finds the first occurrence of the two-character pattern `[d, d]` in a
string, returning the part before it and the part after it.  This is the
search for the closing delimiter of the non-greedy regex group in
`re.sub(r'\*\*(.*?)\*\*', r'\1', text)` (source lines 306-307). -/
def splitAtDouble (d : Char) : Str → Option (Str × Str)
  | [] => none
  | [_] => none
  | c1 :: c2 :: rest =>
    if c1 = d ∧ c2 = d then some ([], rest)
    else
      match splitAtDouble d (c2 :: rest) with
      | some (inner, rest') => some (c1 :: inner, rest')
      | none => none

/-- One regex pass `re.sub(r'dd(.*?)dd', r'\1', s)` where `d` is `*` or `_`
(source lines 306-307): scans left to right; at a `dd` occurrence the
nearest following `dd` closes the group and the delimiters are removed;
with no closing `dd` the engine advances one character.  `fuel` bounds the
recursion; every call site passes the scanned string's length, which always
suffices because each step consumes at least one character. -/
def subDouble (d : Char) : Nat → Str → Str
  | 0, s => s
  | _ + 1, [] => []
  | fuel + 1, c :: rest =>
    if c = d then
      match rest with
      | [] => [c]
      | c2 :: rest2 =>
        if c2 = d then
          match splitAtDouble d rest2 with
          | some (inner, rest') => inner ++ subDouble d fuel rest'
          | none => c :: subDouble d fuel rest
        else c :: subDouble d fuel rest
    else c :: subDouble d fuel rest

/-- `re.sub(pat, rep, s)` for a literal pattern (the checkbox substitutions,
source lines 310-311); `fuel` as in `subDouble`. -/
def replaceSub (pat rep : Str) : Nat → Str → Str
  | 0, s => s
  | _ + 1, [] => []
  | fuel + 1, c :: rest =>
    if pyStartsWith (c :: rest) pat then
      rep ++ replaceSub pat rep fuel ((c :: rest).drop pat.length)
    else c :: replaceSub pat rep fuel rest

def checkDone : Str := ("- [x]").data
def checkTodo : Str := ("- [ ]").data
def symDone : Str := ("✅").data
def symTodo : Str := ("⬜").data

/-- `format_text` (source lines 303-313): strips `**...**` and `__...__`
bold markers, then replaces checkbox markers with symbol characters. -/
def format_text (s : Str) : Str :=
  let s1 := subDouble '*' s.length s
  let s2 := subDouble '_' s1.length s1
  let s3 := replaceSub checkDone symDone s2.length s2
  replaceSub checkTodo symTodo s3.length s3

/-- The table-cell grid rendered by `add_content_slide` (source lines
236-259): `rows = min(len(table), 10)`, `cols = len(table[0])`, and
`cell.text = str(table[r][c]) if r < len(table) and c < len(table[r]) else ''`. -/
def renderTable (t : List (List Str)) : List (List Str) :=
  let rows := min t.length 10
  let cols := (t.headD []).length
  (List.range rows).map fun r =>
    (List.range cols).map fun c =>
      if r < t.length ∧ c < (t.getD r []).length then (t.getD r []).getD c []
      else []

inductive ShapeKind
  | titleBox
  | subtitleBlock
  | contentBlock
  | tableBox
  | codeBlock
  | subtitleInfo
  | sectionTitle
deriving DecidableEq, Repr, Inhabited

/-- A placed region: its kind, vertical extent in hundredths of an inch,
paragraph alignment, and the text lines placed into it. -/
structure Shape where
  kind : ShapeKind
  top : ℤ
  height : ℤ
  centered : Bool
  texts : List Str
deriving DecidableEq, Repr, Inhabited

/-- Python truthiness of `slide_data['table']` (`None` and `[]` are falsy). -/
def tableTruthy (sd : SlideData) : Bool := !(sd.table.getD []).isEmpty

/-- `has_table_or_code` (source line 197). -/
def hasTC (sd : SlideData) : Bool := tableTruthy sd || !sd.code.isEmpty

/-- `top_pos` after the title block of `add_content_slide` (lines 162-175):
0.5 in, plus 0.9 in when a title is placed. -/
def topAfterTitle (sd : SlideData) : ℤ :=
  if sd.title.isEmpty then 50 else 50 + 90

/-- `top_pos` after the subtitles block (lines 178-194): +0.7 in. -/
def topAfterSubs (sd : SlideData) : ℤ :=
  topAfterTitle sd + (if sd.subtitles.isEmpty then 0 else 70)

/-- `top_pos` after the content block (lines 200-233): +5.5 in for the full
content box, +1.6 in for the short one. -/
def topAfterContent (sd : SlideData) : ℤ :=
  topAfterSubs sd +
    (if sd.content.isEmpty then 0 else if hasTC sd then 160 else 550)

/-- `top_pos` after the table block (lines 236-272): +3.2 in. -/
def topAfterTable (sd : SlideData) : ℤ :=
  topAfterContent sd + (if tableTruthy sd then 320 else 0)

/-- The shapes placed by `add_content_slide` (source lines 150-301), in
placement order.  The code block is modelled by its footprint — the
background rectangle of lines 280-284, which encloses the code text box
(top `code_top`, height 2.5) with a 0.05 in margin. -/
def add_content_slide_shapes (sd : SlideData) : List Shape :=
  (if sd.title.isEmpty then []
   else [{ kind := .titleBox, top := 50, height := 80, centered := false,
           texts := [sd.title] }]) ++
  (if sd.subtitles.isEmpty then []
   else [{ kind := .subtitleBlock, top := topAfterTitle sd, height := 60,
           centered := false, texts := sd.subtitles }]) ++
  (if sd.content.isEmpty then []
   else if hasTC sd then
     [{ kind := .contentBlock, top := topAfterSubs sd, height := 150,
        centered := false, texts := (sd.content.take 5).map format_text }]
   else
     [{ kind := .contentBlock, top := topAfterSubs sd, height := 550,
        centered := false, texts := sd.content.map format_text }]) ++
  (if tableTruthy sd then
     [{ kind := .tableBox, top := topAfterContent sd, height := 300,
        centered := true,
        texts := (renderTable (sd.table.getD [])).foldr (· ++ ·) [] }]
   else []) ++
  (if sd.code.isEmpty then []
   else
     [{ kind := .codeBlock,
        top := (if tableTruthy sd then (450 : ℤ) else topAfterTable sd) - 5,
        height := 250 + 10, centered := false,
        texts := [joinSep ['\n'] (sd.code.take 25)] }])

/-- The shapes placed by `add_title_slide` (source lines 102-133). -/
def add_title_slide_shapes (title : Str) (contentLines : List Str) : List Shape :=
  [{ kind := .titleBox, top := 200, height := 120, centered := true,
     texts := [title] }] ++
  (if contentLines.isEmpty then []
   else [{ kind := .subtitleInfo, top := 350, height := 200, centered := true,
           texts := contentLines }])

/-- The shapes placed by `add_section_slide` (source lines 135-148). -/
def add_section_slide_shapes (title : Str) : List Shape :=
  [{ kind := .sectionTitle, top := 300, height := 150, centered := true,
     texts := [title] }]

inductive Role
  | titleSlide
  | sectionSlide
  | contentSlide
deriving DecidableEq, Repr

def sectionMark : Str := ("第").data
def sectionSub : Str := ("部分").data

/-- `is_section` (source lines 333-336). -/
def isSectionData (sd : SlideData) : Bool :=
  pyStartsWith sd.title sectionMark && containsSub sectionSub sd.title &&
    sd.content.isEmpty && !(tableTruthy sd) && sd.code.isEmpty

/-- Role dispatch of `create_presentation` (lines 338-344), `i` counted
from 1 as in `enumerate(slides_data, 1)`. -/
def slideRole (i : Nat) (sd : SlideData) : Role :=
  if i = 1 then .titleSlide
  else if isSectionData sd then .sectionSlide
  else .contentSlide

/-- The shapes of one slide as placed by `create_presentation`: the title
slide receives only the model's title and content lines (line 340). -/
def renderSlide (i : Nat) (sd : SlideData) : List Shape :=
  match slideRole i sd with
  | .titleSlide => add_title_slide_shapes sd.title sd.content
  | .sectionSlide => add_section_slide_shapes sd.title
  | .contentSlide => add_content_slide_shapes sd

/-- All slides of `create_presentation` (lines 329-344). -/
def create_presentation_shapes (slides : List SlideData) : List (List Shape) :=
  slides.enum.map fun p => renderSlide (p.1 + 1) p.2

/-- Concatenated texts of the shapes of a given kind. -/
def textsOfKind (k : ShapeKind) (ss : List Shape) : List Str :=
  ((ss.filter fun s => decide (s.kind = k)).map Shape.texts).foldr (· ++ ·) []

/-- Two shapes occupy disjoint vertical extents. -/
def shapesDisjoint (a b : Shape) : Bool :=
  decide (a.top + a.height ≤ b.top) || decide (b.top + b.height ≤ a.top)


/-- Every pair of shapes in the list is vertically disjoint. -/
def allDisjoint : List Shape → Bool
  | [] => true
  | s :: rest => rest.all (shapesDisjoint s) && allDisjoint rest

/-- Spec-style segmentation, for comparison with the source's `pySections`:
the document's lines are grouped between lines whose stripped content is a
run of three or more hyphens only, and whitespace-only segments are dropped.
This definition follows the spec's words (a "horizontal rule" line), not the
source. -/
def isRuleLine (l : Str) : Bool :=
  let t := pyStrip l
  decide (3 ≤ t.length) && t.all (fun c => c == '-')

def specSegmentGroups : List Str → List (List Str)
  | [] => [[]]
  | l :: rest =>
    if isRuleLine l then [] :: specSegmentGroups rest
    else
      match specSegmentGroups rest with
      | [] => [[l]]
      | g :: gs => (l :: g) :: gs

def specSegments (content : Str) : List Str :=
  ((specSegmentGroups (pyLines content)).map
      (joinSep ['\n'])).filter fun s => !(pyStrip s).isEmpty

/- Concrete documents used to settle the claims. -/

/-- A document whose only `---` occurs inside a line. -/
def exC1 : Str := ("a --- b").data

/-- Two top-level headings inside the first segment. -/
def exC2 : Str := ("# A\n# B").data

/-- Two top-level headings in the first and second segments. -/
def exC2pair : Str := ("# A\nh\n---\n# B\nx").data

/-- A fenced block whose interior contains a horizontal-rule line. -/
def exC3 : Str := ("```\n---\nx\n```").data

/-- A fence opened but never closed before the segment ends. -/
def exC4 : Str := ("## T\n```\ncode1").data

/-- A three-row, two-column table with a `---` separator row. -/
def exC5 : Str := ("|A|B|\n|---|---|\n|1|2|").data

/-- A fenced block with 30 interior lines. -/
def exC6 : Str :=
  joinSep ['\n']
    ((("```").data) :: (List.replicate 30 (("x").data) ++ [("```").data]))

/-- A document whose second slide carries a title, a subtitle, a table and a
code block. -/
def exC7 : Str := ("# Main\nhello\n---\n## T\n### S\n|a|\n```\nc\n```").data

/- Helper lemmas about the string primitives. -/

theorem pyStartsWith_length : ∀ (s p : Str), pyStartsWith s p = true → p.length ≤ s.length := by
  intro s p
  induction p generalizing s with
  | nil => intro _; simp
  | cons x xs ih =>
    intro h
    cases s with
    | nil => simp [pyStartsWith] at h
    | cons c cs =>
      simp only [pyStartsWith, Bool.and_eq_true] at h
      have := ih cs h.2
      simp only [List.length_cons]
      omega

theorem pyStartsWith_append : ∀ (s p t : Str), pyStartsWith s p = true →
    pyStartsWith (s ++ t) p = true := by
  intro s p
  induction p generalizing s with
  | nil => intro t _; cases s <;> simp [pyStartsWith]
  | cons x xs ih =>
    intro t h
    cases s with
    | nil => simp [pyStartsWith] at h
    | cons c cs =>
      simp only [pyStartsWith, Bool.and_eq_true] at h
      simpa [pyStartsWith, h.1] using ih cs t h.2

theorem containsSub_append_right : ∀ (a b p : Str), containsSub p a = true →
    containsSub p (a ++ b) = true := by
  intro a b p
  induction a with
  | nil =>
    intro h
    simp only [containsSub] at h
    have : p = [] := by
      cases p with
      | nil => rfl
      | cons x xs => simp [List.isEmpty] at h
    subst this
    cases b <;> simp [containsSub, pyStartsWith]
  | cons c cs ih =>
    intro h
    simp only [containsSub, Bool.or_eq_true] at h ⊢
    rcases h with h | h
    · exact Or.inl (pyStartsWith_append _ _ _ h)
    · exact Or.inr (ih h)

theorem containsSub_append_left : ∀ (a b p : Str), containsSub p b = true →
    containsSub p (a ++ b) = true := by
  intro a b p
  induction a with
  | nil => intro h; simpa using h
  | cons c cs ih =>
    intro h
    simp only [List.cons_append, containsSub, Bool.or_eq_true]
    exact Or.inr (ih h)

theorem containsSub_infix (a m b p : Str) (h : containsSub p m = true) :
    containsSub p (a ++ m ++ b) = true := by
  have := containsSub_append_right m b p h
  simpa [List.append_assoc] using containsSub_append_left a (m ++ b) p this

theorem containsSub_d3_short : ∀ (s : Str), s.length ≤ 2 →
    containsSub dashes3 s = false := by
  intro s h
  match s with
  | [] => simp [containsSub, dashes3]
  | [a] => simp [containsSub, pyStartsWith, dashes3]
  | [a, b] => simp [containsSub, pyStartsWith, dashes3]
  | a :: b :: c :: t => simp at h

theorem containsSub_snoc (L : Str) (y : Char)
    (h : containsSub dashes3 (L ++ [y]) = true) :
    containsSub dashes3 L = true ∨
      (y = '-' ∧ pyStartsWith L.reverse twoDashes = true) := by
  induction L with
  | nil =>
    exfalso
    simp [containsSub, pyStartsWith, dashes3] at h
  | cons x L ih =>
    simp only [List.cons_append, containsSub, Bool.or_eq_true] at h
    rcases h with h | h
    · match L with
      | [] =>
        exfalso
        simp [pyStartsWith, dashes3] at h
      | [a] =>
        simp [pyStartsWith, dashes3] at h
        right
        refine ⟨h.2.2, ?_⟩
        simp [pyStartsWith, twoDashes, h.1, h.2.1]
      | a :: b :: L2 =>
        left
        simp [pyStartsWith, dashes3] at h
        simp [containsSub, pyStartsWith, dashes3, h.1, h.2.1, h.2.2]
    · rcases ih h with h' | h'
      · left
        simp only [containsSub, Bool.or_eq_true]
        exact Or.inr h'
      · right
        refine ⟨h'.1, ?_⟩
        have := pyStartsWith_append L.reverse twoDashes [x] h'.2
        simpa using this

theorem splitDashes_ne_nil : ∀ (s acc : Str), splitDashes s acc ≠ [] := by
  intro s acc
  induction s, acc using splitDashes.induct with
  | case1 acc => simp [splitDashes.eq_1]
  | case2 rest acc ih => simp [splitDashes.eq_2]
  | case3 c rest acc hcond ih =>
    rw [splitDashes.eq_3 acc c rest hcond]
    exact ih

/-- Every piece produced by `str.split('---')` is free of the substring
`---`: the split happens at every occurrence. -/
theorem splitDashes_noTriple : ∀ (s acc : Str),
    containsSub dashes3 (acc.reverse ++ s.take 2) = false →
    ∀ p ∈ splitDashes s acc, containsSub dashes3 p = false := by
  intro s acc
  induction s, acc using splitDashes.induct with
  | case1 acc =>
    intro h p hp
    rw [splitDashes.eq_1] at hp
    simp at hp
    subst hp
    simpa using h
  | case2 rest acc ih =>
    intro h p hp
    rw [splitDashes.eq_2] at hp
    rcases List.mem_cons.mp hp with rfl | hp
    · cases hAcc : containsSub dashes3 acc.reverse with
      | false => rfl
      | true =>
        exfalso
        have hx := containsSub_append_right acc.reverse
          (('-' :: '-' :: '-' :: rest).take 2) dashes3 hAcc
        rw [h] at hx
        exact Bool.false_ne_true hx
    · refine ih ?_ p hp
      have hlen : (rest.take 2).length ≤ 2 := List.length_take_le 2 rest
      simp only [List.reverse_nil, List.nil_append]
      exact containsSub_d3_short _ hlen
  | case3 c rest acc hcond ih =>
    intro h p hp
    rw [splitDashes.eq_3 acc c rest hcond] at hp
    refine ih ?_ p hp
    match rest with
    | [] => simpa [List.append_assoc] using h
    | [r0] => simpa [List.append_assoc] using h
    | r0 :: r1 :: r2 =>
      by_contra hc
      rw [Bool.not_eq_false] at hc
      have hc' : containsSub dashes3
          ((acc.reverse ++ [c, r0]) ++ [r1]) = true := by
        simpa [List.append_assoc] using hc
      rcases containsSub_snoc _ _ hc' with h' | h'
      · have hin : containsSub dashes3
            (acc.reverse ++ (c :: r0 :: r1 :: r2).take 2) = true := by
          simpa [List.append_assoc] using h'
        rw [h] at hin
        exact Bool.false_ne_true hin
      · obtain ⟨hy, hs⟩ := h'
        have hrc : r0 = '-' ∧ c = '-' := by
          simpa [pyStartsWith, twoDashes] using hs
        exact hcond r2 hrc.2 (by rw [hrc.1, hy])

theorem joinSep_cons_of_ne_nil (sep p : Str) (ps : List Str) (h : ps ≠ []) :
    joinSep sep (p :: ps) = p ++ sep ++ joinSep sep ps := by
  cases ps with
  | nil => exact absurd rfl h
  | cons q qs => simp [joinSep, joinSepTail, List.append_assoc]

/-- Joining the pieces of `str.split('---')` with `---` restores the
original text. -/
theorem splitDashes_join : ∀ (s acc : Str),
    joinSep dashes3 (splitDashes s acc) = acc.reverse ++ s := by
  intro s acc
  induction s, acc using splitDashes.induct with
  | case1 acc => rw [splitDashes.eq_1]; simp [joinSep, joinSepTail]
  | case2 rest acc ih =>
    rw [splitDashes.eq_2,
      joinSep_cons_of_ne_nil _ _ _ (splitDashes_ne_nil _ _), ih]
    simp [dashes3, List.append_assoc]
  | case3 c rest acc hcond ih =>
    rw [splitDashes.eq_3 acc c rest hcond, ih]
    simp [List.append_assoc]

theorem dropWhile_suffix_decomp (f : Char → Bool) (s : Str) :
    ∃ a, s = a ++ s.dropWhile f :=
  ⟨s.takeWhile f, (List.takeWhile_append_dropWhile f s).symm⟩

theorem pyStrip_infix_decomp (s : Str) : ∃ a b, s = a ++ pyStrip s ++ b := by
  obtain ⟨a, ha⟩ := dropWhile_suffix_decomp pySpace s
  obtain ⟨b, hb⟩ := dropWhile_suffix_decomp pySpace (s.dropWhile pySpace).reverse
  have h2 : s.dropWhile pySpace = pyStrip s ++ b.reverse := by
    have h3 := congrArg List.reverse hb
    simpa [pyStrip] using h3
  exact ⟨a, b.reverse, by rw [List.append_assoc, ← h2]; exact ha⟩

theorem pyRstripNl_suffix_decomp (s : Str) : ∃ a, s = pyRstripNl s ++ a := by
  obtain ⟨b, hb⟩ := dropWhile_suffix_decomp (fun c => c == '\n') s.reverse
  refine ⟨b.reverse, ?_⟩
  have h2 := congrArg List.reverse hb
  simp only [List.reverse_reverse, List.reverse_append] at h2
  conv_lhs => rw [h2]
  simp [pyRstripNl]

theorem noTriple_of_infix (s m a b : Str) (hs : containsSub dashes3 s = false)
    (h : s = a ++ m ++ b) : containsSub dashes3 m = false := by
  by_contra hc
  rw [Bool.not_eq_false] at hc
  have := containsSub_infix a m b dashes3 hc
  rw [← h, hs] at this
  exact Bool.false_ne_true this

theorem splitChar_ne_nil (sep : Char) : ∀ (s acc : Str), splitChar sep s acc ≠ [] := by
  intro s
  induction s with
  | nil => intro acc; simp [splitChar]
  | cons c rest ih =>
    intro acc
    rw [splitChar]
    by_cases hc : c = sep
    · rw [if_pos hc]; simp
    · rw [if_neg hc]; exact ih _

theorem splitChar_join (sep : Char) : ∀ (s acc : Str),
    joinSep [sep] (splitChar sep s acc) = acc.reverse ++ s := by
  intro s
  induction s with
  | nil => intro acc; simp [splitChar, joinSep, joinSepTail]
  | cons c rest ih =>
    intro acc
    rw [splitChar]
    by_cases hc : c = sep
    · rw [if_pos hc, joinSep_cons_of_ne_nil _ _ _ (splitChar_ne_nil sep rest []),
        ih []]
      subst hc
      simp [List.append_assoc]
    · rw [if_neg hc, ih (c :: acc)]
      simp [List.append_assoc]

theorem mem_joinSep_infix (sep : Str) : ∀ (ps : List Str) (p : Str), p ∈ ps →
    ∃ a b, joinSep sep ps = a ++ p ++ b := by
  intro ps
  induction ps with
  | nil => intro p hp; simp at hp
  | cons q qs ih =>
    intro p hp
    rcases List.mem_cons.mp hp with rfl | hp
    · exact ⟨[], joinSepTail sep qs, by simp [joinSep]⟩
    · obtain ⟨a, b, hab⟩ := ih p hp
      have hne : qs ≠ [] := by intro hq; subst hq; simp at hp
      refine ⟨q ++ sep ++ a, b, ?_⟩
      rw [joinSep_cons_of_ne_nil _ _ _ hne, hab]
      simp [List.append_assoc]

theorem pySections_noTriple (content : Str) :
    ∀ sec ∈ pySections content, containsSub dashes3 sec = false := by
  intro sec hsec
  refine splitDashes_noTriple content [] ?_ sec hsec
  simp only [List.reverse_nil, List.nil_append]
  exact containsSub_d3_short _ (List.length_take_le 2 content)

theorem pyLines_noTriple (s : Str) (hs : containsSub dashes3 s = false) :
    ∀ l ∈ pyLines s, containsSub dashes3 l = false := by
  intro l hl
  obtain ⟨a, b, hab⟩ := mem_joinSep_infix ['\n'] (pyLines s) l hl
  have hjoin : joinSep ['\n'] (pyLines s) = s := by
    simpa using splitChar_join '\n' s []
  rw [hjoin] at hab
  exact noTriple_of_infix s l a b hs hab

theorem processLine_tableLines_sub (td : Bool) (st : ParseState) (l : Str) :
    ∀ tl ∈ (processLine td st l).tableLines,
      tl ∈ st.tableLines ∨ tl = pyRstripNl l := by
  intro tl htl
  simp only [processLine] at htl
  split_ifs at htl <;> simp_all

theorem foldl_tableLines_noTriple (td : Bool) :
    ∀ (lines : List Str) (st : ParseState),
      (∀ tl ∈ st.tableLines, containsSub dashes3 tl = false) →
      (∀ l ∈ lines, containsSub dashes3 (pyRstripNl l) = false) →
      ∀ tl ∈ (lines.foldl (processLine td) st).tableLines,
        containsSub dashes3 tl = false := by
  intro lines
  induction lines with
  | nil => intro st h1 _ tl htl; exact h1 tl htl
  | cons l ls ih =>
    intro st h1 h2 tl htl
    simp only [List.foldl_cons] at htl
    refine ih (processLine td st l) ?_
      (fun x hx => h2 x (List.mem_cons_of_mem _ hx)) tl htl
    intro x hx
    rcases processLine_tableLines_sub td st l x hx with h | h
    · exact h1 x h
    · rw [h]; exact h2 l (List.mem_cons_self _ _)

/-- Every table row collected while scanning a section of the real document
is free of the substring `---` — the separator-skip test of source line 87
can never fire, because the document was already split on `---`. -/
theorem sectionState_tableLines_noTriple (td : Bool) (sec : Str)
    (hsec : containsSub dashes3 sec = false) :
    ∀ tl ∈ (sectionState td sec).tableLines, containsSub dashes3 tl = false := by
  have hstrip : containsSub dashes3 (pyStrip sec) = false := by
    obtain ⟨a, b, hab⟩ := pyStrip_infix_decomp sec
    exact noTriple_of_infix sec (pyStrip sec) a b hsec hab
  intro tl htl
  refine foldl_tableLines_noTriple td (pyLines (pyStrip sec)) initState ?_ ?_ tl htl
  · intro x hx; simp [initState] at hx
  · intro l hl
    have hline := pyLines_noTriple (pyStrip sec) hstrip l hl
    obtain ⟨a, ha⟩ := pyRstripNl_suffix_decomp l
    exact noTriple_of_infix l (pyRstripNl l) [] a hline (by simpa using ha)

/-- While a fence is open, a non-fence line only appends to the code buffer
(blank lines as empty strings); the slide fields, the collected table rows
and the open-fence flag are unchanged (source lines 38-57). -/
theorem processLine_inCode (td : Bool) (st : ParseState) (l : Str)
    (hin : st.inCode = true) (hf : lineFence (pyRstripNl l) = false) :
    processLine td st l =
      { st with codeLines := st.codeLines ++
          [if lineBlank (pyRstripNl l) then [] else pyRstripNl l] } := by
  simp only [processLine]
  by_cases hb : lineBlank (pyRstripNl l)
  · simp [hb, hin]
  · simp [hb, hf, hin]

/-- Folding fence-free lines from an open-fence state never touches the
slide record and leaves the fence open. -/
theorem foldl_inCode_slide_unchanged (td : Bool) :
    ∀ (lines : List Str) (st : ParseState), st.inCode = true →
      (∀ l ∈ lines, lineFence (pyRstripNl l) = false) →
      (lines.foldl (processLine td) st).slide = st.slide ∧
        (lines.foldl (processLine td) st).inCode = true := by
  intro lines
  induction lines with
  | nil => intro st hin _; exact ⟨rfl, hin⟩
  | cons l ls ih =>
    intro st hin hf
    simp only [List.foldl_cons]
    rw [processLine_inCode td st l hin (hf l (List.mem_cons_self _ _))]
    exact ih _ hin fun x hx => hf x (List.mem_cons_of_mem _ hx)

/-- `C1` counterexample: the claim says an occurrence of three hyphens
inside another line creates no segment boundary, so `"a --- b"` would be a
single segment producing one slide with content line `"a --- b"`.  The code
splits mid-line: it produces two slides with contents `"a"` and `"b"`.
The spec-style segmenter (`specSegments`) keeps the line whole. -/
theorem c1_counterexample :
    parse_markdown exC1 =
      [{ emptySlide with content := [("a").data] },
       { emptySlide with content := [("b").data] }] ∧
    parse_markdown exC1 ≠ [{ emptySlide with content := [exC1] }] ∧
    specSegments exC1 = [exC1] :=
  ⟨by decide, by decide, by decide⟩

/-- `C1` (amended): the segmenter splits at every leftmost non-overlapping
occurrence of the three-character substring `---`, wherever it occurs
(inside lines included): joining the produced segments with `---` restores
the document, no segment retains an occurrence of `---`, and a segment that
strips to whitespace is skipped by the section loop. -/
theorem c1_amended_split (content : Str) :
    joinSep dashes3 (pySections content) = content ∧
    (∀ p ∈ pySections content, containsSub dashes3 p = false) ∧
    (∀ (td : Bool) (sec : Str) (rest : List Str), (pyStrip sec).isEmpty = true →
      parseSections td (sec :: rest) = parseSections td rest) := by
  refine ⟨by simpa using splitDashes_join content [], pySections_noTriple content, ?_⟩
  intro td sec rest h
  simp [parseSections, h]

/-- Witness for `C1`: the amended theorem applied to the concrete document
`"a --- b"`, with each hypothesis discharged at a concrete segment. -/
theorem c1_amended_split_witness :
    joinSep dashes3 (pySections exC1) = exC1 ∧
    containsSub dashes3 (("a ").data) = false ∧
    parseSections false ((" ").data :: [exC1]) = parseSections false [exC1] := by
  refine ⟨(c1_amended_split exC1).1, ?_, ?_⟩
  · exact (c1_amended_split exC1).2.1 (("a ").data) (by decide)
  · exact (c1_amended_split exC1).2.2 false ((" ").data) [exC1] (by decide)

/-- `C2` counterexample: with two `# ` lines in the same (first) segment the
second one overwrites the first, so the first top-level heading does not
become the presentation title. -/
theorem c2_counterexample :
    (parse_markdown exC2).map SlideData.title = [("B").data] ∧
    (parse_markdown exC2).map SlideData.title ≠ [("A").data] :=
  ⟨by decide, by decide⟩

/-- `C2` (amended): while the title flag is false every `# ` line
(over)writes the slide title — so the last `# ` line of the first accepted
segment wins; once the flag is true a `# ` line is consumed with no effect
at all (it neither changes the title nor reaches `contentLines`); the flag
becomes true when a non-empty slide is accepted; and in the two-segment
document of the claim only the first `# ` line populates the title. -/
theorem c2_amended_title :
    (∀ (st : ParseState) (l : Str),
      st.inCode = false → lineBlank (pyRstripNl l) = false →
      lineFence (pyRstripNl l) = false → lineTable (pyRstripNl l) = false →
      lineH1 (pyRstripNl l) = true →
      processLine true st l = st) ∧
    (∀ (st : ParseState) (l : Str),
      st.inCode = false → lineBlank (pyRstripNl l) = false →
      lineFence (pyRstripNl l) = false → lineTable (pyRstripNl l) = false →
      lineH1 (pyRstripNl l) = true →
      processLine false st l =
        { st with slide :=
            { st.slide with title := pyStrip ((pyRstripNl l).drop 2) } }) ∧
    (∀ (td : Bool) (sec : Str) (rest : List Str),
      (pyStrip sec).isEmpty = false →
      acceptSlide (buildSlide td sec) = true →
      parseSections td (sec :: rest) =
        buildSlide td sec :: parseSections true rest) ∧
    parse_markdown exC2pair =
      [{ emptySlide with title := ("A").data, content := [("h").data] },
       { emptySlide with content := [("x").data] }] := by
  refine ⟨?_, ?_, ?_, by decide⟩
  · intro st l h0 h1 h2 h3 h4
    simp [processLine, h0, h1, h2, h3, h4]
  · intro st l h0 h1 h2 h3 h4
    simp [processLine, h0, h1, h2, h3, h4]
  · intro td sec rest h1 h2
    simp [parseSections, h1, h2]

/-- Witness for `C2`: a `# ` line seen with the flag already true leaves the
state untouched, and one seen with the flag false sets the title. -/
theorem c2_amended_title_witness :
    processLine true initState (("# T").data) = initState ∧
    processLine false initState (("# T").data) =
      { initState with slide := { emptySlide with title := ("T").data } } := by
  constructor
  · exact c2_amended_title.1 initState (("# T").data)
      (by decide) (by decide) (by decide) (by decide) (by decide)
  · exact (c2_amended_title.2.1 initState (("# T").data)
      (by decide) (by decide) (by decide) (by decide) (by decide)).trans (by decide)

/-- `C3` counterexample: in the document containing a fenced block whose
interior holds a `---` line, the interior line `x` lies between the fence
open and its matching close, yet it is recorded as plain content of a slide
(the `---` inside the fence split the document first), and nothing is
recorded as code. -/
theorem c3_counterexample :
    parse_markdown exC3 = [{ emptySlide with content := [("x").data] }] ∧
    ¬(∃ sd ∈ parse_markdown exC3, ("x").data ∈ sd.code) :=
  ⟨by decide, by decide⟩

/-- `C3` (amended): within a single segment fence integrity does hold — a
line scanned while the fence is open and not itself a fence marker is
recorded verbatim into the code buffer (blank lines as empty strings) and
is never classified as heading, table row or plain content; the protection
fails only across segment boundaries, because splitting on `---` happens
before line classification. -/
theorem c3_amended_fence (td : Bool) (st : ParseState) (l : Str)
    (hin : st.inCode = true) (hf : lineFence (pyRstripNl l) = false) :
    processLine td st l =
      { st with codeLines := st.codeLines ++
          [if lineBlank (pyRstripNl l) then [] else pyRstripNl l] } ∧
    (processLine td st l).slide = st.slide ∧
    (processLine td st l).tableLines = st.tableLines ∧
    (processLine td st l).inCode = true := by
  have h := processLine_inCode td st l hin hf
  refine ⟨h, ?_, ?_, ?_⟩ <;> simp [h, hin]

/-- Witness for `C3`: a table-looking line inside an open fence is captured
as code and classified as nothing else. -/
theorem c3_amended_fence_witness :
    processLine false { initState with inCode := true } (("|r|").data) =
      { initState with inCode := true, codeLines := [("|r|").data] } := by
  exact ((c3_amended_fence false { initState with inCode := true }
    (("|r|").data) (by decide) (by decide)).1).trans (by decide)

/-- `C4` counterexample: a fence opened but never closed — the accumulated
line `code1` is discarded, not attached: the emitted model's `code` field
is empty. -/
theorem c4_counterexample :
    parse_markdown exC4 = [{ emptySlide with title := ("T").data }] ∧
    ((parse_markdown exC4).headD default).code = [] ∧
    ¬(("code1").data ∈ ((parse_markdown exC4).headD default).code) :=
  ⟨by decide, by decide, by decide⟩

/-- `C4` (amended): the model's `code` field is assigned only when a closing
fence line is scanned; if a fence is opened and no later line of the segment
is a fence marker, the remaining lines only fill the internal buffer and the
slide record (including its `code` field) is left exactly as it was, so the
buffered lines are dropped when the segment ends. -/
theorem c4_amended_unterminated :
    (∀ (td : Bool) (lines : List Str) (st : ParseState),
      st.inCode = true →
      (∀ l ∈ lines, lineFence (pyRstripNl l) = false) →
      (lines.foldl (processLine td) st).slide = st.slide) ∧
    parse_markdown exC4 = [{ emptySlide with title := ("T").data }] := by
  refine ⟨?_, by decide⟩
  intro td lines st hin hf
  exact (foldl_inCode_slide_unchanged td lines st hin hf).1

/-- Witness for `C4`: folding the line `code1` from an open-fence state
leaves the slide record unchanged. -/
theorem c4_amended_unterminated_witness :
    ([("code1").data].foldl (processLine false)
        { initState with inCode := true }).slide = emptySlide := by
  exact (c4_amended_unterminated.1 false [("code1").data]
    { initState with inCode := true } (by decide)
    (by intro l hl; simp at hl; subst hl; decide)).trans (by decide)

/-- The table accumulation loop of lines 85-90, on rows free of `---`, keeps
exactly the rows with a non-empty cell list, in order, each row split on `|`
with the outer fields dropped and the cells stripped. -/
theorem processTable_foldl_filter :
    ∀ (tls : List Str) (acc : List (List Str)),
      (∀ tl ∈ tls, containsSub dashes3 tl = false) →
      tls.foldl
        (fun acc tl =>
          if containsSub dashes3 tl then acc
          else if (cellsOf tl).isEmpty then acc
          else acc ++ [cellsOf tl]) acc =
      acc ++ ((tls.map cellsOf).filter fun cs => !cs.isEmpty) := by
  intro tls
  induction tls with
  | nil => intro acc _; simp
  | cons tl tls ih =>
    intro acc h
    have h0 : containsSub dashes3 tl = false := h tl (List.mem_cons_self _ _)
    have hrest : ∀ x ∈ tls, containsSub dashes3 x = false :=
      fun x hx => h x (List.mem_cons_of_mem _ hx)
    rw [List.foldl_cons, ih _ hrest]
    by_cases hc : cellsOf tl = []
    · simp [h0, hc]
    · simp [h0, hc, List.append_assoc]

/-- `C5` counterexample: the 3-row, 2-column table with a `---` separator
row does not yield one 2-by-2 grid — the separator row is shredded by the
segment split, yielding two slides with one-row tables. -/
theorem c5_counterexample :
    (parse_markdown exC5).map SlideData.table =
      [some [[("A").data, ("B").data]], some [[("1").data, ("2").data]]] ∧
    (parse_markdown exC5).map SlideData.table ≠
      [some [[("A").data, ("B").data], [("1").data, ("2").data]]] :=
  ⟨by decide, by decide⟩

/-- `C5` (amended): the extraction discards rows *containing* the substring
`---` (not rows matching a separator character-class pattern), but in the
real pipeline no collected table row can contain `---` at all, because the
document was split on `---` first — so nothing is ever discarded by that
test; the remaining rows are split on `|`, the outer fields dropped, cells
trimmed, and rows with an empty cell list dropped.  The claim's 3-row
2-column example is split across segments and yields two one-row tables. -/
theorem c5_amended_table :
    (∀ (content : Str) (td : Bool) (sec : Str), sec ∈ pySections content →
      ∀ tl ∈ (sectionState td sec).tableLines, containsSub dashes3 tl = false) ∧
    (∀ (tls : List Str), (∀ tl ∈ tls, containsSub dashes3 tl = false) →
      processTable tls =
        (if ((tls.map cellsOf).filter fun cs => !cs.isEmpty).isEmpty then none
         else some ((tls.map cellsOf).filter fun cs => !cs.isEmpty))) ∧
    parse_markdown exC5 =
      [{ emptySlide with table := some [[("A").data, ("B").data]] },
       { emptySlide with table := some [[("1").data, ("2").data]] }] := by
  refine ⟨?_, ?_, by decide⟩
  · intro content td sec hsec
    exact sectionState_tableLines_noTriple td sec
      (pySections_noTriple content sec hsec)
  · intro tls h
    simp only [processTable]
    rw [processTable_foldl_filter tls [] h]
    simp

/-- Witness for `C5`: a concrete collected row of the claim's example table
is `---`-free, and table post-processing keeps it as its cells. -/
theorem c5_amended_table_witness :
    containsSub dashes3 (("|A|B|").data) = false ∧
    processTable [("|A|B|").data] = some [[("A").data, ("B").data]] := by
  constructor
  · exact c5_amended_table.1 exC5 false (("|A|B|\n|").data) (by decide)
      (("|A|B|").data) (by decide)
  · exact (c5_amended_table.2.1 [("|A|B|").data]
      (by intro tl htl; simp at htl; subst htl; decide)).trans (by decide)

/-- `C6` counterexample: a 30-line fenced block is retained whole in the
model — `codeLines` is not truncated at build time. -/
theorem c6_counterexample :
    ((parse_markdown exC6).headD default).code.length = 30 ∧
    ¬(((parse_markdown exC6).headD default).code.length ≤ 25) :=
  ⟨by decide, by decide⟩

/-- `C6` (amended): the model retains every interior fence line; truncation
to the first 25 lines happens at render time — the code block's text is the
newline-join of `code[:25]` (source line 294) — so the rendered text never
exceeds 25 lines, while the model itself may hold more (30 in the example). -/
theorem c6_amended_code_truncation :
    (∀ sd : SlideData, sd.code.isEmpty = false →
      textsOfKind ShapeKind.codeBlock (add_content_slide_shapes sd) =
        [joinSep ['\n'] (sd.code.take 25)]) ∧
    (∀ code : List Str, (code.take 25).length ≤ 25) ∧
    ((parse_markdown exC6).headD default).code.length = 30 := by
  refine ⟨?_, ?_, by decide⟩
  · intro sd h
    by_cases h1 : sd.title.isEmpty <;> by_cases h2 : sd.subtitles.isEmpty <;>
      by_cases h3 : sd.content.isEmpty <;> by_cases h4 : tableTruthy sd <;>
      simp [add_content_slide_shapes, textsOfKind, hasTC, h, h1, h2, h3, h4]
  · intro code
    simp only [List.length_take]
    omega

/-- Witness for `C6`: the rendered code text of a one-line model. -/
theorem c6_amended_code_truncation_witness :
    textsOfKind ShapeKind.codeBlock
        (add_content_slide_shapes { emptySlide with code := [("c").data] }) =
      [joinSep ['\n'] ([("c").data].take 25)] :=
  c6_amended_code_truncation.1 { emptySlide with code := [("c").data] } (by decide)

/-- `C7` counterexample: the second slide of `exC7` (a content slide whose
model has a title, a subtitle, a table and a code block) receives a table
region spanning 2.1 in to 5.1 in and a code region pinned at 4.5 in
(footprint from 4.45 in), so the two regions overlap. -/
theorem c7_counterexample :
    allDisjoint (add_content_slide_shapes
      ((parse_markdown exC7).getD 1 default)) = false ∧
    slideRole 2 ((parse_markdown exC7).getD 1 default) = Role.contentSlide ∧
    tableTruthy ((parse_markdown exC7).getD 1 default) = true ∧
    ((parse_markdown exC7).getD 1 default).code.isEmpty = false :=
  ⟨by decide, by decide, by decide, by decide⟩

/-- `C7` (amended): no region of a content slide is ever given a negative
top offset or a non-positive height; and whenever the slide lacks a table
or lacks a code block, all its regions are pairwise disjoint vertically.
The exception forced by the counterexample is a slide carrying both a table
and code: the code block is pinned at 4.5 in and can overlap the table. -/
theorem c7_amended_layout :
    (∀ sd : SlideData, ((add_content_slide_shapes sd).all
      fun s => decide ((0 : ℤ) ≤ s.top) && decide ((0 : ℤ) < s.height)) = true) ∧
    (∀ sd : SlideData, tableTruthy sd = false ∨ sd.code.isEmpty = true →
      allDisjoint (add_content_slide_shapes sd) = true) := by
  constructor
  · intro sd
    have ht1 : (50 : ℤ) ≤ topAfterTitle sd := by
      simp only [topAfterTitle]; split_ifs <;> omega
    have ht2 : topAfterTitle sd ≤ topAfterSubs sd := by
      simp only [topAfterSubs]; split_ifs <;> omega
    have ht3 : topAfterSubs sd ≤ topAfterContent sd := by
      simp only [topAfterContent]; split_ifs <;> omega
    have ht4 : topAfterContent sd ≤ topAfterTable sd := by
      simp only [topAfterTable]; split_ifs <;> omega
    simp only [add_content_slide_shapes, List.all_append, Bool.and_eq_true]
    split_ifs
    all_goals simp only [List.all_nil, List.all_cons, Bool.and_eq_true,
      decide_eq_true_eq, Bool.and_true, and_true, true_and]
    all_goals repeat' apply And.intro
    all_goals first
    | trivial
    | omega
  · intro sd h
    have hcases : (tableTruthy sd = false ∧ sd.code.isEmpty = true) ∨
        (tableTruthy sd = false ∧ sd.code.isEmpty = false) ∨
        (tableTruthy sd = true ∧ sd.code.isEmpty = true) := by
      rcases h with h4 | h5
      · cases hc : sd.code.isEmpty with
        | false => exact Or.inr (Or.inl ⟨h4, rfl⟩)
        | true => exact Or.inl ⟨h4, rfl⟩
      · cases ht : tableTruthy sd with
        | false => exact Or.inl ⟨rfl, h5⟩
        | true => exact Or.inr (Or.inr ⟨rfl, h5⟩)
    rcases hcases with ⟨h4, h5⟩ | ⟨h4, h5⟩ | ⟨h4, h5⟩ <;>
      by_cases h1 : sd.title.isEmpty <;> by_cases h2 : sd.subtitles.isEmpty <;>
      by_cases h3 : sd.content.isEmpty <;>
      simp [add_content_slide_shapes, allDisjoint, shapesDisjoint, topAfterTitle,
        topAfterSubs, topAfterContent, topAfterTable, hasTC, h1, h2, h3, h4, h5,
        Bool.or_eq_true, Bool.and_eq_true, decide_eq_true_eq]

/-- Witness for `C7`: a slide with title and content only is fully disjoint,
and its regions all have non-negative tops and positive heights. -/
theorem c7_amended_layout_witness :
    allDisjoint (add_content_slide_shapes
      { emptySlide with title := ("T").data, content := [("h").data] }) = true ∧
    ((add_content_slide_shapes { emptySlide with title := ("T").data }).all
      fun s => decide ((0 : ℤ) ≤ s.top) && decide ((0 : ℤ) < s.height)) = true := by
  constructor
  · exact c7_amended_layout.2 _ (Or.inl (by decide))
  · exact c7_amended_layout.1 _

/-- One rendered table row: iterating `c` over the first row's column count
with the `else ''` guard is the same as truncating the row to that width and
padding short rows with empty strings. -/
theorem renderRow_eq : ∀ (cols : Nat) (row : List Str),
    ((List.range cols).map
        fun c => if c < row.length then row.getD c [] else ([] : Str)) =
      row.take cols ++ List.replicate (cols - row.length) [] := by
  intro cols
  induction cols with
  | zero => intro row; simp
  | succ n ih =>
    intro row
    cases row with
    | nil =>
      simp only [List.length_nil, Nat.not_lt_zero, if_false, List.map_const',
        List.length_range, List.take_nil, Nat.sub_zero, List.nil_append]
    | cons x xs =>
      rw [List.range_succ_eq_map]
      simp only [List.map_cons, List.map_map]
      have hfun : ((fun c => if c < (x :: xs).length then (x :: xs).getD c []
            else ([] : Str)) ∘ Nat.succ) =
          fun c => if c < xs.length then xs.getD c [] else ([] : Str) := by
        funext c
        simp [Function.comp, Nat.succ_lt_succ_iff]
      rw [hfun, ih xs]
      simp

/-- `C8` (confirmed): for every model table, the grid rendered by
`add_content_slide` is exactly the first `min 10` rows, each truncated to the
first row's column count and padded with empty strings when shorter — so at
most 10 rows are rendered, every rendered row has exactly the first row's
cell count, and cells beyond that count are never placed. -/
theorem c8_table_render (t : List (List Str)) :
    renderTable t =
      ((t.take 10).map fun row =>
        row.take (t.headD []).length ++
          List.replicate ((t.headD []).length - row.length) ([] : Str)) ∧
    (renderTable t).length ≤ 10 ∧
    (renderTable t).map List.length =
      List.replicate (renderTable t).length (t.headD []).length := by
  have hmain : renderTable t =
      ((t.take 10).map fun row =>
        row.take (t.headD []).length ++
          List.replicate ((t.headD []).length - row.length) ([] : Str)) := by
    apply List.ext_getElem
    · simp [renderTable, List.length_take]
      omega
    · intro r h1 h2
      have hr10 : r < (List.take 10 t).length := by
        simpa using h2
      have hrt : r < t.length := by
        simp [List.length_take] at hr10
        omega
      simp only [renderTable, List.getElem_map, List.getElem_range]
      have hcell : (fun c => if r < t.length ∧ c < (t.getD r []).length then
            (t.getD r []).getD c [] else ([] : Str)) =
          fun c => if c < (t.getD r []).length then (t.getD r []).getD c []
            else ([] : Str) := by
        funext c
        simp [hrt]
      rw [hcell, renderRow_eq]
      rw [List.getElem_take, List.getD_eq_getElem t [] hrt]
  refine ⟨hmain, ?_, ?_⟩
  · rw [hmain]
    simp [List.length_take]
  · rw [List.eq_replicate_iff]
    refine ⟨List.length_map _ _, ?_⟩
    intro b hb
    rw [hmain] at hb
    simp only [List.map_map, List.mem_map, Function.comp] at hb
    obtain ⟨row, _, hlen⟩ := hb
    rw [← hlen]
    simp only [List.length_append, List.length_take, List.length_replicate]
    omega

/-- `C9` (confirmed): the slide at index 1 always receives the title-slide
role (even when the section pattern would match); the title slide consists
of exactly one centered title region and, exactly when `contentLines` is
non-empty, one centered subtitle-info region below it listing those lines
verbatim; and the rendering of slide 1 depends only on the model's title
and content — subtitles, table and code are ignored. -/
theorem c9_title_slide :
    (∀ sd : SlideData, slideRole 1 sd = Role.titleSlide) ∧
    (∀ (sd : SlideData) (rest : List SlideData),
      (create_presentation_shapes (sd :: rest)).headD [] =
        add_title_slide_shapes sd.title sd.content) ∧
    (∀ (title : Str) (contentLines : List Str),
      (add_title_slide_shapes title contentLines).map Shape.kind =
        ShapeKind.titleBox ::
          (if contentLines.isEmpty then [] else [ShapeKind.subtitleInfo])) ∧
    (∀ (title : Str) (contentLines : List Str),
      textsOfKind ShapeKind.titleBox (add_title_slide_shapes title contentLines)
          = [title] ∧
      textsOfKind ShapeKind.subtitleInfo
          (add_title_slide_shapes title contentLines) = contentLines ∧
      ∀ s ∈ add_title_slide_shapes title contentLines, s.centered = true) ∧
    (∀ (title : Str) (contentLines : List Str),
      contentLines.isEmpty = false →
      ((add_title_slide_shapes title contentLines).headD default).top +
          ((add_title_slide_shapes title contentLines).headD default).height ≤
        ((add_title_slide_shapes title contentLines).getD 1 default).top) ∧
    (∀ sd sd' : SlideData, sd.title = sd'.title → sd.content = sd'.content →
      renderSlide 1 sd = renderSlide 1 sd') := by
  refine ⟨?_, ?_, ?_, ?_, ?_, ?_⟩
  · intro sd
    simp [slideRole]
  · intro sd rest
    simp [create_presentation_shapes, renderSlide, slideRole]
  · intro title contentLines
    by_cases h : contentLines.isEmpty <;>
      simp [add_title_slide_shapes, h]
  · intro title contentLines
    by_cases h : contentLines = [] <;>
      simp [add_title_slide_shapes, textsOfKind, h]
  · intro title contentLines h
    simp [add_title_slide_shapes, h]
  · intro sd sd' h1 h2
    simp [renderSlide, slideRole, h1, h2]

/-- Witness for `C9`: on a concrete title slide with one content line, the
subtitle-info region sits below the title region. -/
theorem c9_title_slide_witness :
    ((add_title_slide_shapes (("T").data) [("a").data]).headD default).top +
        ((add_title_slide_shapes (("T").data) [("a").data]).headD default).height ≤
      ((add_title_slide_shapes (("T").data) [("a").data]).getD 1 default).top :=
  c9_title_slide.2.2.2.2.1 (("T").data) [("a").data] (by decide)

/-- `C10` (confirmed, implicit): on content slides every rendered body-text
line is `format_text` of the model line (the first five lines only when a
table or code block is present), while the title slide's subtitle-info
region carries the model's content lines verbatim; `format_text` strips
`**...**` and `__...__` markers and substitutes the checkbox markers, so the
same model line can render differently depending on the slide's role. -/
theorem c10_format_role :
    (∀ sd : SlideData,
      textsOfKind ShapeKind.contentBlock (add_content_slide_shapes sd) =
        (if hasTC sd then sd.content.take 5 else sd.content).map format_text) ∧
    (∀ (title : Str) (contentLines : List Str),
      textsOfKind ShapeKind.subtitleInfo
        (add_title_slide_shapes title contentLines) = contentLines) ∧
    (format_text (("**bold** x").data) = ("bold x").data ∧
      format_text (("__u__ y").data) = ("u y").data ∧
      format_text (("- [x] a").data) = ("✅ a").data ∧
      format_text (("- [ ] b").data) = ("⬜ b").data) ∧
    (textsOfKind ShapeKind.contentBlock (add_content_slide_shapes
        { emptySlide with content := [("**b**").data] }) = [("b").data] ∧
      textsOfKind ShapeKind.subtitleInfo
        (add_title_slide_shapes [] [("**b**").data]) = [("**b**").data] ∧
      ("b").data ≠ ("**b**").data) := by
  refine ⟨?_, ?_, ⟨by decide, by decide, by decide, by decide⟩,
    by decide, by decide, by decide⟩
  · intro sd
    by_cases h1 : sd.title.isEmpty <;> by_cases h2 : sd.subtitles.isEmpty <;>
      by_cases h3 : sd.content = [] <;> by_cases h4 : tableTruthy sd <;>
      by_cases h5 : sd.code.isEmpty <;>
      simp [add_content_slide_shapes, textsOfKind, hasTC, h1, h2, h3, h4, h5]
  · intro title contentLines
    by_cases h : contentLines = [] <;>
      simp [add_title_slide_shapes, textsOfKind, h]
